import Mathlib

/-!
Verification of the spreadsheet-import core of the expense-tracker repository.

The Python sources embedded here:
  backend/app/services/excel_import.py   (ExcelImportService)
  backend/app/services/category_matcher.py / expense-tracker copy (CategoryMatcher)
  backend/app/api/import_api.py          (import_excel orchestrator loop)
  backend/scripts/import_excel_local.py  (process_batch, chunked main loop)

Modelling conventions:
  - Python strings are `List Char` (named `PyStr`); string literals are written
    as `"...".data`, which the kernel evaluates.
  - Python floats are modelled as exact rationals `ℚ`; every numeric value a
    claim mentions is exactly representable.
  - Calendar dates are modelled as `Date := ℤ`, a day count (the Excel epoch
    1899-12-30 is day 0).  No claim inspects the year/month/day structure, only
    equality of dates, so a day count is a faithful model.
  - A spreadsheet cell is `Option CellValue`: `none` is an empty cell
    (Python `None`), and `CellValue` covers the value types the service
    distinguishes with `isinstance`: numbers, strings, `date` and `datetime`.
  - `_parse_date` delegates to `datetime.strptime` over format lists, regex
    search and the external `dateutil` fuzzy parser; it is therefore taken as
    an oracle parameter `pd : CellValue → Option Date` in `validateRow`, and
    the theorems that concern it hold for every oracle.  All other functions
    are translated directly from the Python source.
  - Database reads/writes are explicit list state; whether a commit raises is
    an oracle (`persistOk` / `commitOk`), as is the message `str(e)`.
-/

/-! ## Python string primitives -/

/-- Python strings, modelled as their character lists. -/
abbrev PyStr := List Char

/-- The whitespace characters of `str.strip` / regex `\s` (ASCII range; all
data in this development is ASCII). -/
def isPySpace (c : Char) : Bool :=
  c == ' ' || c == '\t' || c == '\n' || c == '\r' || c == '\x0b' || c == '\x0c'

/-- Python `str.strip()`: drop leading and trailing whitespace. -/
def trimChars (s : PyStr) : PyStr :=
  ((s.dropWhile isPySpace).reverse.dropWhile isPySpace).reverse

/-- Python `str.lower()`. -/
def lowerChars (s : PyStr) : PyStr := s.map Char.toLower

/-- Python `str.upper()`. -/
def upperChars (s : PyStr) : PyStr := s.map Char.toUpper

/-- Python `str.split(sep)` for a one-character separator: keeps empty
fields, and the split of the empty string is `[""]`. -/
def splitChar (sep : Char) : PyStr → List PyStr
  | [] => [[]]
  | c :: cs =>
    if c == sep then [] :: splitChar sep cs
    else
      match splitChar sep cs with
      | [] => [[c]]
      | w :: ws => (c :: w) :: ws

/-- Helper for `splitWs`: accumulates the current word (reversed). -/
def splitWsAux (cur : PyStr) : PyStr → List PyStr
  | [] => if cur.isEmpty then [] else [cur.reverse]
  | c :: cs =>
    if isPySpace c then
      if cur.isEmpty then splitWsAux [] cs else cur.reverse :: splitWsAux [] cs
    else splitWsAux (c :: cur) cs

/-- Python `str.split()` with no argument: split on whitespace runs,
producing no empty tokens. -/
def splitWs (s : PyStr) : List PyStr := splitWsAux [] s

/-- Decimal digit string of a natural number (Python `str(n)`). -/
def natRepr (n : ℕ) : PyStr := (Nat.repr n).data

/-- Python `"; ".join(parts)`. -/
def joinSemicolon : List PyStr → PyStr
  | [] => []
  | [p] => p
  | p :: ps => p ++ "; ".data ++ joinSemicolon ps

/-- Decimal value of a digit string (the integer part of Python `float`). -/
def digitsVal (s : PyStr) : ℕ :=
  s.foldl (fun a c => a * 10 + (c.toNat - 48)) 0

/-! ## Cell values -/

/-- Days since the Excel epoch 1899-12-30.  Only equality of dates is ever
observed by a claim, so a day count is a faithful model of `datetime.date`. -/
abbrev Date := ℤ

/-- A non-`None` spreadsheet cell value, as the value types the import
service distinguishes with `isinstance`. -/
inductive CellValue where
  /-- an `int` or `float` cell -/
  | num (q : ℚ)
  /-- a `str` cell -/
  | str (s : PyStr)
  /-- a `datetime.date` cell -/
  | date (d : Date)
  /-- a `datetime.datetime` cell, carrying its date part -/
  | dtime (d : Date)
  deriving DecidableEq

/-- Python truthiness of a cell value: `0`, `0.0` and `""` are falsy; `date`
and `datetime` objects are always truthy. -/
def CellValue.truthy : CellValue → Bool
  | .num q => q != 0
  | .str s => !s.isEmpty
  | .date _ => true
  | .dtime _ => true

/-- Python `str(value)` on a cell value.  Strings are themselves.  An
integral number prints as its digits (the numeric cells of this repository
are integers); non-integral and date renderings are stand-ins for the
external builtin, and no claim observes them. -/
def pyStr : CellValue → PyStr
  | .str s => s
  | .num q => if q.den = 1 then (toString q.num).data else "<float>".data
  | .date d => "<date ".data ++ (toString d).data ++ ">".data
  | .dtime d => "<datetime ".data ++ (toString d).data ++ ">".data

/-! ## Amount parsing (`ExcelImportService._parse_amount`) -/

/-- The characters removed by `re.sub(r'[Rp$€£¥,\s]', '', value_str)`:
the letters `R` and `p`, four currency signs, the comma, and whitespace. -/
def isAmountStripChar (c : Char) : Bool :=
  c == 'R' || c == 'p' || c == '$' || c == '€' || c == '£' || c == '¥' ||
    c == ',' || isPySpace c

/-- `re.sub(r'[Rp$€£¥,\s]', '', value_str)`. -/
def stripAmount (s : PyStr) : PyStr := s.filter (fun c => !isAmountStripChar c)

/-- The thousands/decimal-separator disambiguation of `_parse_amount`:
more than one `.` strips them all; a single `.` whose suffix is longer than
two characters is stripped; otherwise the string is unchanged. -/
def cleanDots (s : PyStr) : PyStr :=
  if 1 < s.count '.' then s.filter (fun c => !(c == '.'))
  else if s.count '.' = 1 then
    let parts := splitChar '.' s
    if 1 < parts.length ∧ 2 < (parts.getD 1 []).length then
      s.filter (fun c => !(c == '.'))
    else s
  else s

/-- Decidable front half of the Python builtin `float()` on the plain decimal
strings this service produces: optional sign, digits, at most one dot, at
least one digit.  (Exponent, infinity and underscore forms never arise from
the cleaned strings of this pipeline.)  Returns sign, integer-part value,
fraction-part value, and fraction length. -/
def pyFloatParts (s : PyStr) : Option (Bool × ℕ × ℕ × ℕ) :=
  let (neg, rest) :=
    match s with
    | '-' :: r => (true, r)
    | '+' :: r => (false, r)
    | r => (false, r)
  let intPart := rest.takeWhile Char.isDigit
  let rest2 := rest.drop intPart.length
  match rest2 with
  | [] => if intPart.isEmpty then none else some (neg, digitsVal intPart, 0, 0)
  | '.' :: frac =>
    if frac.all Char.isDigit ∧ (¬intPart.isEmpty ∨ ¬frac.isEmpty) then
      some (neg, digitsVal intPart, digitsVal frac, frac.length)
    else none
  | _ => none

/-- The rational value named by a parsed decimal string. -/
def partsVal : Bool × ℕ × ℕ × ℕ → ℚ
  | (neg, ip, fp, fl) =>
    (if neg then -1 else 1) * ((ip : ℚ) + (fp : ℚ) / (10 : ℚ) ^ fl)

/-- Model of Python `float()`: the exact rational value of the decimal
string, or `none` when the string does not parse. -/
def pyFloat (s : PyStr) : Option ℚ := (pyFloatParts s).map partsVal

/-- `ExcelImportService._parse_amount`: numbers pass through; falsy values
give `None`; strings are stripped of currency symbols and whitespace, the
period ambiguity is resolved by `cleanDots`, and the remainder goes to
`float()`. -/
def parseAmount : CellValue → Option ℚ
  | .num q => some q
  | v =>
    if !v.truthy then none
    else pyFloat (cleanDots (stripAmount (trimChars (pyStr v))))

/-! ## Column detection (`ExcelImportService._detect_columns`) -/

/-- The semantic fields of `COLUMN_MAPPINGS`. -/
inductive FieldKey where
  | fid | fdate | famount | fdescription | fname | frawtext | fcategory
  | flocation | fnotes | fwho | fcurrency | ftags
  deriving DecidableEq

/-- `COLUMN_MAPPINGS`, in the source dictionary order. -/
def columnMappings : List (FieldKey × List PyStr) :=
  [ (.fid, [("id".data), ("uuid".data), ("expense_id".data)]),
    (.fdate, [("date".data), ("tanggal".data), ("transaction date".data),
      ("expense date".data), ("timestamp".data)]),
    (.famount, [("amount".data), ("jumlah".data), ("total".data),
      ("price".data), ("harga".data), ("value".data)]),
    (.fdescription, [("description".data), ("deskripsi".data), ("note".data),
      ("notes".data), ("detail".data), ("item".data), ("merchant".data),
      ("store".data)]),
    (.fname, [("name".data)]),
    (.frawtext, [("rawtext".data), ("raw text".data)]),
    (.fcategory, [("category".data), ("kategori".data), ("type".data),
      ("jenis".data)]),
    (.flocation, [("location".data), ("lokasi".data), ("place".data),
      ("tempat".data)]),
    (.fnotes, [("notes".data), ("note".data), ("catatan".data),
      ("remarks".data), ("keterangan".data)]),
    (.fwho, [("who".data)]),
    (.fcurrency, [("currency".data), ("mata uang".data), ("matauang".data)]),
    (.ftags, [("tags".data), ("tag".data), ("label".data)]) ]

/-- The column map: semantic field to 1-based column index, in insertion
order (a Python dict). -/
abbrev ColumnMap := List (FieldKey × ℕ)

/-- `field in self.column_map` / `self.column_map[field]`. -/
def lookupField (cm : ColumnMap) (f : FieldKey) : Option ℕ :=
  (cm.find? (fun p => p.1 = f)).map Prod.snd

/-- One header cell: on a truthy cell, the first alias match for a
not-yet-mapped field wins (`for field, aliases in ...: ... break`). -/
def detectCell (cm : ColumnMap) (colIdx : ℕ) : Option CellValue → ColumnMap
  | none => cm
  | some v =>
    if !v.truthy then cm
    else
      let s := lowerChars (trimChars (pyStr v))
      match columnMappings.find?
          (fun p => s ∈ p.2 && (lookupField cm p.1).isNone) with
      | some p => cm ++ [(p.1, colIdx)]
      | none => cm

/-- Scan the cells of one header row left to right (1-based columns). -/
def detectCells (cm : ColumnMap) (colIdx : ℕ) :
    List (Option CellValue) → ColumnMap
  | [] => cm
  | c :: cs => detectCells (detectCell cm colIdx c) (colIdx + 1) cs

/-- The stop test of `_detect_columns`: date, amount, and one of
description/name/rawtext are mapped. -/
def requiredMapped (cm : ColumnMap) : Bool :=
  (lookupField cm .fdate).isSome && (lookupField cm .famount).isSome &&
    ((lookupField cm .fdescription).isSome ||
      (lookupField cm .fname).isSome || (lookupField cm .frawtext).isSome)

/-- Scan header rows top to bottom, stopping once the required fields are
mapped. -/
def detectRows (cm : ColumnMap) : List (List (Option CellValue)) → ColumnMap
  | [] => cm
  | row :: rest =>
    let cm2 := detectCells cm 1 row
    if requiredMapped cm2 then cm2 else detectRows cm2 rest

/-- `_detect_columns`: scan the first `min(3, max_row)` worksheet rows. -/
def detectColumns (ws : List (List (Option CellValue))) : ColumnMap :=
  detectRows [] (ws.take 3)

/-! ## Row extraction (`ExcelImportService._extract_row`) -/

/-- The raw per-row dictionary `row_data`: `none` marks an absent key. -/
structure RowData where
  rid : Option CellValue := none
  rdate : Option CellValue := none
  ramount : Option CellValue := none
  rdescription : Option CellValue := none
  rname : Option CellValue := none
  rrawtext : Option CellValue := none
  rcategory : Option CellValue := none
  rlocation : Option CellValue := none
  rnotes : Option CellValue := none
  rwho : Option CellValue := none
  rcurrency : Option CellValue := none
  rtags : Option CellValue := none
  deriving DecidableEq

/-- `row_data[field] = value`. -/
def setField (rd : RowData) (f : FieldKey) (v : CellValue) : RowData :=
  match f with
  | .fid => { rd with rid := some v }
  | .fdate => { rd with rdate := some v }
  | .famount => { rd with ramount := some v }
  | .fdescription => { rd with rdescription := some v }
  | .fname => { rd with rname := some v }
  | .frawtext => { rd with rrawtext := some v }
  | .fcategory => { rd with rcategory := some v }
  | .flocation => { rd with rlocation := some v }
  | .fnotes => { rd with rnotes := some v }
  | .fwho => { rd with rwho := some v }
  | .fcurrency => { rd with rcurrency := some v }
  | .ftags => { rd with rtags := some v }

/-- `if not row_data` (Python dict truthiness: true when no key is set). -/
def RowData.isEmptyDict (rd : RowData) : Bool :=
  rd.rid.isNone && rd.rdate.isNone && rd.ramount.isNone &&
    rd.rdescription.isNone && rd.rname.isNone && rd.rrawtext.isNone &&
    rd.rcategory.isNone && rd.rlocation.isNone && rd.rnotes.isNone &&
    rd.rwho.isNone && rd.rcurrency.isNone && rd.rtags.isNone

/-- Python `int()` on a rational: truncation toward zero. -/
def ratTrunc (q : ℚ) : ℤ := if 0 ≤ q then q.floor else q.ceil

/-- The date-typed conversion applied during extraction: datetimes drop the
time of day; positive numbers are Excel serial dates, added to the epoch
(`Date` is a day count from that very epoch, so the sum is `ratTrunc`). -/
def convertDateCell : CellValue → CellValue
  | .dtime d => .date d
  | .date d => .date d
  | .num q => if 0 < q then .date (ratTrunc q) else .num q
  | .str s => .str s

/-- The mapped-field loop of `_extract_row`: for each mapped column within
the row width, a non-`None` value (date-converted for the date field) is
stored. -/
def extractFields (cells : List (Option CellValue)) :
    ColumnMap → RowData → RowData
  | [], rd => rd
  | (f, col) :: rest, rd =>
    let rd2 :=
      if col ≤ cells.length then
        match cells.getD (col - 1) none with
        | none => rd
        | some v =>
          setField rd f (if f = FieldKey.fdate then convertDateCell v else v)
      else rd
    extractFields cells rest rd2

/-- `a or b or ''` over optional cell values: the first truthy value, else
the empty string. -/
def orTruthy (x : Option CellValue) (d : CellValue) : CellValue :=
  match x with
  | some v => if v.truthy then v else d
  | none => d

/-- `ExcelImportService._extract_row` minus the cell reads: description
synthesis from name/rawtext, the who-to-notes rule, and the empty-dict
check. -/
def synthesizeRow (rd : RowData) : Option RowData :=
  let parts : List PyStr :=
    match rd.rname with
    | some nv => if nv.truthy then [trimChars (pyStr nv)] else []
    | none => []
  let (parts2, rd1) :=
    match rd.rrawtext with
    | some rv =>
      if rv.truthy then
        let rs := trimChars (pyStr rv)
        if !rs.isEmpty && !(parts.contains rs) then
          if parts.isEmpty then (parts ++ [rs], rd)
          else (parts, { rd with rnotes := some (.str rs) })
        else (parts, rd)
      else (parts, rd)
    | none => (parts, rd)
  let rd2 :=
    match parts2 with
    | p :: _ => { rd1 with rdescription := some (.str p) }
    | [] =>
      match rd1.rdescription with
      | some dv =>
        if dv.truthy then rd1
        else { rd1 with
          rdescription := some (orTruthy rd1.rname
            (orTruthy rd1.rrawtext (.str []))) }
      | none =>
        { rd1 with
          rdescription := some (orTruthy rd1.rname
            (orTruthy rd1.rrawtext (.str []))) }
  let rd3 :=
    match rd2.rwho with
    | some wv =>
      if wv.truthy then
        let ws := trimChars (pyStr wv)
        if !ws.isEmpty then
          match rd2.rnotes with
          | some nv =>
            if nv.truthy then
              { rd2 with rnotes := some (.str (pyStr nv ++ " (by ".data ++
                  ws ++ ")".data)) }
            else { rd2 with rnotes := some (.str ("by ".data ++ ws)) }
          | none => { rd2 with rnotes := some (.str ("by ".data ++ ws)) }
        else rd2
      else rd2
    | none => rd2
  if rd3.isEmptyDict then none else some rd3

/-- `_extract_row` for one worksheet row. -/
def extractRow (cm : ColumnMap) (cells : List (Option CellValue)) :
    Option RowData :=
  synthesizeRow (extractFields cells cm {})

/-! ## Row validation (`ExcelImportService._validate_row`) -/

/-- The typed fields `_validate_row` writes back into the row.  On an
amount or description error the Python dict keeps the raw value, but the
caller discards such rows, so the typed view (`none` on failure) is the
observable one. -/
structure VRow where
  vdate : Date
  vamount : Option ℚ
  vdescription : Option PyStr
  vcurrency : PyStr
  vlocation : Option PyStr
  vnotes : Option PyStr
  vtags : List PyStr
  deriving DecidableEq

/-- The date resolution of `_validate_row`: absent or falsy gives today;
native datetimes and dates pass their date part through; anything else is
handed to `_parse_date` (the oracle `pd`), with today as the fallback when
every strategy fails.  No branch can produce an error message. -/
def resolveDate (pd : CellValue → Option Date) (today : Date)
    (dv : Option CellValue) : Date :=
  match dv with
  | none => today
  | some v =>
    if !v.truthy then today
    else
      match v with
      | .dtime d => d
      | .date d => d
      | v => (pd v).getD today

/-- `_validate_row`: returns the accumulated error list (empty on success)
and the updated row.  Errors arise only from the amount and description
blocks, in that order. -/
def validateRow (pd : CellValue → Option Date) (today : Date)
    (rd : RowData) : List PyStr × VRow :=
  let d := resolveDate pd today rd.rdate
  let (amountErrs, am) :=
    match rd.ramount with
    | none => ([("Amount is required".data)], none)
    | some v =>
      match parseAmount v with
      | none => ([("Invalid amount: ".data ++ pyStr v)], none)
      | some q => ([], some q)
  let (descErrs, ds) :=
    match rd.rdescription with
    | none => ([("Description is required".data)], none)
    | some v =>
      if !v.truthy then ([("Description is required".data)], none)
      else
        let s := trimChars (pyStr v)
        if 500 < s.length then
          ([("Description too long (max 500 characters)".data)], some s)
        else ([], some s)
  let curr :=
    match rd.rcurrency with
    | some v =>
      if v.truthy then
        let c := upperChars (trimChars (pyStr v))
        if c.length = 3 then c else "IDR".data
      else "IDR".data
    | none => "IDR".data
  let loc :=
    match rd.rlocation with
    | some v => if v.truthy then some ((trimChars (pyStr v)).take 200) else none
    | none => none
  let nts :=
    match rd.rnotes with
    | some v => if v.truthy then some (trimChars (pyStr v)) else none
    | none => none
  let tgs :=
    match rd.rtags with
    | some v =>
      if v.truthy then
        let ts := trimChars (pyStr v)
        let raw := if ts.contains ',' then (splitChar ',' ts).map trimChars
          else splitWs ts
        raw.filter (fun t => !t.isEmpty)
      else []
    | none => []
  (amountErrs ++ descErrs, ⟨d, am, ds, curr, loc, nts, tgs⟩)

/-! ## Whole-file parsing (`ExcelImportService.parse`) -/

/-- The structural error text returned when no column was detected. -/
def structMsg : PyStr :=
  ("Could not detect required columns. Please ensure your Excel file has columns for Date, Amount, and Description.".data)

/-- One row of the `parse` loop at worksheet row number `n`: an extracted
row goes to validation; a validation failure contributes one row-scoped
message; a `None` extraction is skipped silently. -/
def parseRowStep (pd : CellValue → Option Date) (today : Date)
    (cm : ColumnMap) (cells : List (Option CellValue)) (n : ℕ)
    (tail : List VRow × List PyStr) : List VRow × List PyStr :=
  match extractRow cm cells with
  | none => tail
  | some rd =>
    let (errs, out) := validateRow pd today rd
    if errs.isEmpty then (out :: tail.1, tail.2)
    else (tail.1,
      ("Row ".data ++ natRepr n ++ ": ".data ++ joinSemicolon errs) :: tail.2)

/-- The per-row loop of `parse`, from worksheet row number `n`. -/
def parseRows (pd : CellValue → Option Date) (today : Date)
    (cm : ColumnMap) : List (List (Option CellValue)) → ℕ →
    List VRow × List PyStr
  | [], _ => ([], [])
  | cells :: rest, n =>
    parseRowStep pd today cm cells n (parseRows pd today cm rest (n + 1))

/-- `ExcelImportService.parse` after the workbook load: detect columns over
the first three rows; an empty map aborts with the single structural error;
otherwise rows 2..max_row are extracted and validated. -/
def parseWS (pd : CellValue → Option Date) (today : Date)
    (ws : List (List (Option CellValue))) : List VRow × List PyStr :=
  let cm := detectColumns ws
  if cm.isEmpty then ([], [structMsg])
  else parseRows pd today cm (ws.drop 1) 2

/-! ## Category matching (`CategoryMatcher`) -/

/-- `a.isPrefixOf b` over characters, written out. -/
def startsWithChars : PyStr → PyStr → Bool
  | [], _ => true
  | _ :: _, [] => false
  | a :: as, b :: bs => a == b && startsWithChars as bs

/-- Python `sub in s`: substring occurrence. -/
def occursInChars (sub : PyStr) : PyStr → Bool
  | [] => sub.isEmpty
  | c :: cs => startsWithChars sub (c :: cs) || occursInChars sub cs

/-- The `\w` class of `_extract_words` (ASCII scope, as is all data here). -/
def isWordChar (c : Char) : Bool := c.isAlphanum || c == '_'

/-- The stop words of `_extract_words`. -/
def stopWords : List PyStr :=
  [("the".data), ("a".data), ("an".data), ("and".data), ("or".data),
    ("but".data), ("in".data), ("on".data), ("at".data), ("to".data),
    ("for".data), ("of".data), ("with".data), ("by".data)]

/-- `CategoryMatcher._extract_words`: lowercase, replace non-word non-space
characters by spaces, split on whitespace, drop words of length at most 2
and stop words. -/
def extractWords (t : PyStr) : List PyStr :=
  if t.isEmpty then []
  else
    let norm := (lowerChars t).map
      (fun c => if isWordChar c || isPySpace c then c else ' ')
    (splitWs norm).filter
      (fun w => 2 < w.length && !(stopWords.contains w))

/-- A category row: only the name is observed by the matcher. -/
structure Categ where
  cname : PyStr
  deriving DecidableEq

/-- `self.keyword_map.get(category.name, [])`. -/
def kmGet (km : List (PyStr × List PyStr)) (name : PyStr) : List PyStr :=
  match km.find? (fun p => p.1 == name) with
  | some p => p.2
  | none => []

/-- The keyword loop of `match`: `+3` for an exact tokenized-word match,
else `+1` for a substring match against the lowercased description. -/
def kwScore (dwords : List PyStr) (ndesc : PyStr) : List PyStr → ℕ
  | [] => 0
  | k :: ks =>
    (if dwords.contains (lowerChars k) then 3
     else if occursInChars (lowerChars k) ndesc then 1 else 0) +
      kwScore dwords ndesc ks

/-- The category-name loop of `match`: `+2` for each tokenized word of the
category name appearing among the description words. -/
def nameScore (dwords : List PyStr) : List PyStr → ℕ
  | [] => 0
  | w :: ws => (if dwords.contains w then 2 else 0) + nameScore dwords ws

/-- The score `match` computes for one category. -/
def catScore (km : List (PyStr × List PyStr)) (dwords : List PyStr)
    (ndesc : PyStr) (c : Categ) : ℕ :=
  kwScore dwords ndesc (kmGet km c.cname) +
    nameScore dwords (extractWords c.cname)

/-- The best-match fold of `match`: skip categories with no keywords;
update the champion only on a strictly greater score. -/
def selectBest (km : List (PyStr × List PyStr)) (dwords : List PyStr)
    (ndesc : PyStr) : List Categ → Option Categ × ℕ → Option Categ × ℕ
  | [], acc => acc
  | c :: cs, (best, bs) =>
    if (kmGet km c.cname).isEmpty then selectBest km dwords ndesc cs (best, bs)
    else
      let s := catScore km dwords ndesc c
      if bs < s then selectBest km dwords ndesc cs (some c, s)
      else selectBest km dwords ndesc cs (best, bs)

/-- `CategoryMatcher.match`: empty descriptions and descriptions with no
extracted words give no category; otherwise the fold champion is returned
when its score reaches the threshold 2. -/
def matchCat (cats : List Categ) (km : List (PyStr × List PyStr))
    (desc : PyStr) : Option Categ :=
  if desc.isEmpty then none
  else
    let ndesc := lowerChars desc
    let dwords := extractWords desc
    if dwords.isEmpty then none
    else
      let (best, bs) := selectBest km dwords ndesc cats (none, 0)
      if 2 ≤ bs then best else none

/-! ## Keyword-map construction (`CategoryMatcher._build_keyword_map`) -/

/-- The `predefined_keywords` table, verbatim (duplicates included). -/
def predefinedKeywordTable : List (PyStr × List PyStr) :=
  [ (("Food & Dining".data),
      [("food".data), ("restaurant".data), ("cafe".data), ("coffee".data),
        ("lunch".data), ("dinner".data), ("breakfast".data), ("makan".data),
        ("restoran".data), ("kafe".data), ("kopi".data),
        ("makan siang".data), ("makan malam".data), ("sarapan".data),
        ("warung".data), ("bakso".data), ("nasi".data), ("mie".data),
        ("ayam".data), ("ikan".data), ("daging".data)]),
    (("Transportation".data),
      [("transport".data), ("taxi".data), ("grab".data), ("gojek".data),
        ("uber".data), ("bus".data), ("train".data), ("flight".data),
        ("transportasi".data), ("taksi".data), ("ojek".data),
        ("kereta".data), ("pesawat".data), ("bensin".data), ("gas".data),
        ("parking".data), ("parkir".data), ("tol".data), ("toll".data)]),
    (("Shopping".data),
      [("shop".data), ("shopping".data), ("mall".data), ("store".data),
        ("market".data), ("supermarket".data), ("grocery".data),
        ("belanja".data), ("toko".data), ("mall".data), ("pasar".data),
        ("supermarket".data), ("swalayan".data)]),
    (("Bills & Utilities".data),
      [("bill".data), ("utility".data), ("electricity".data),
        ("water".data), ("internet".data), ("phone".data),
        ("electric".data), ("tagihan".data), ("listrik".data),
        ("air".data), ("internet".data), ("telepon".data), ("pdam".data),
        ("pln".data)]),
    (("Entertainment".data),
      [("entertainment".data), ("movie".data), ("cinema".data),
        ("concert".data), ("game".data), ("netflix".data),
        ("spotify".data), ("hiburan".data), ("film".data),
        ("bioskop".data), ("konser".data), ("game".data), ("tiket".data)]),
    (("Healthcare".data),
      [("health".data), ("healthcare".data), ("doctor".data),
        ("hospital".data), ("pharmacy".data), ("medicine".data),
        ("clinic".data), ("kesehatan".data), ("dokter".data),
        ("rumah sakit".data), ("apotek".data), ("obat".data),
        ("klinik".data), ("medical".data)]),
    (("Education".data),
      [("education".data), ("school".data), ("university".data),
        ("course".data), ("book".data), ("tuition".data),
        ("learning".data), ("pendidikan".data), ("sekolah".data),
        ("universitas".data), ("kursus".data), ("buku".data),
        ("belajar".data)]),
    (("Personal Care".data),
      [("personal care".data), ("haircut".data), ("salon".data),
        ("spa".data), ("beauty".data), ("skincare".data),
        ("cosmetic".data), ("perawatan".data), ("potong rambut".data),
        ("salon".data), ("spa".data), ("kecantikan".data),
        ("skincare".data)]),
    (("Travel".data),
      [("travel".data), ("hotel".data), ("flight".data), ("ticket".data),
        ("vacation".data), ("trip".data), ("holiday".data),
        ("perjalanan".data), ("hotel".data), ("pesawat".data),
        ("tiket".data), ("liburan".data), ("wisata".data)]),
    (("Gifts & Donations".data),
      [("gift".data), ("donation".data), ("charity".data),
        ("present".data), ("birthday".data), ("wedding".data),
        ("hadiah".data), ("donasi".data), ("amal".data), ("kado".data),
        ("ulang tahun".data), ("pernikahan".data)]),
    (("Subscriptions".data),
      [("subscription".data), ("netflix".data), ("spotify".data),
        ("youtube".data), ("premium".data), ("membership".data),
        ("langganan".data), ("berlangganan".data), ("premium".data),
        ("keanggotaan".data)]) ]

/-- `predefined_keywords.get(category_name, [])`. -/
def predefinedKeywords (name : PyStr) : List PyStr :=
  kmGet predefinedKeywordTable name

/-- Distinct elements in first-occurrence order: the iteration order of a
`collections.Counter` built by insertion. -/
def dedupAux (seen : List PyStr) : List PyStr → List PyStr
  | [] => []
  | x :: xs =>
    if seen.contains x then dedupAux seen xs
    else x :: dedupAux (x :: seen) xs

/-- Distinct elements of a list, first occurrence first. -/
def dedupKeepFirst (l : List PyStr) : List PyStr := dedupAux [] l

/-- The learned keywords of `_build_keyword_map`: words extracted from all
the descriptions are pooled (with multiplicity); words of length above 3
whose total occurrence count is at least 2 are kept, in first-occurrence
order, and the first 10 survive. -/
def learnedWords (descs : List PyStr) : List PyStr :=
  let allW := descs.flatMap extractWords
  ((dedupKeepFirst allW).filter
    (fun w => 2 ≤ allW.count w && 3 < w.length)).take 10

/-- One entry of the keyword map: `list(set(predefined + learned))`,
modelled as first-occurrence deduplication (a set has no duplicates; the
matcher only ever sums over the whole list, so the order is unobservable). -/
def buildEntry (name : PyStr) (descs : List PyStr) : List PyStr :=
  dedupKeepFirst (predefinedKeywords name ++ learnedWords descs)

/-- `_build_keyword_map` over all loaded categories; `descsOf` is the
database query for a category's existing expense descriptions, capped by
`limit(100)`. -/
def buildKeywordMap (cats : List Categ) (descsOf : PyStr → List PyStr) :
    List (PyStr × List PyStr) :=
  cats.map (fun c => (c.cname, buildEntry c.cname ((descsOf c.cname).take 100)))

/-! ## The API orchestrator (`import_api.import_excel`, rows loop) -/

/-- A validated row as the orchestrator sees it: validation guarantees the
amount is present, so it is a plain rational here. -/
structure PRow where
  pid : Option PyStr := none
  amount : ℚ
  description : PyStr := []
  pdate : Date := 0
  deriving DecidableEq

/-- One `failed_rows` entry of the API loop: 1-plus-enumerate row index,
`str(e)`, and the raw row data. -/
structure FailedEntry where
  rowIdx : ℕ
  emsg : PyStr
  rdata : PRow
  deriving DecidableEq

/-- The mutable state of the API processing loop.  The category-match
histogram is omitted: its update is pure, cannot raise, and no claim
observes it. -/
structure ApiState where
  db : List PRow
  imported : ℕ
  skipped : ℕ
  uncategorized : ℕ
  failedRows : List FailedEntry
  attempts : List PRow
  deriving DecidableEq

/-- The `for idx, expense_data in enumerate(expenses_data, start=1)` loop:
non-positive amounts are skipped before anything else; otherwise the row is
attempted, and the commit either persists it or is caught, rolled back and
recorded.  `pOk i` is whether the commit of the row enumerated `i`
succeeds, `msg i` is `str(e)` on failure, and `mc` is the category
matching outcome (its own exceptions are also covered by `pOk`). -/
def processRows (pOk : ℕ → Bool) (msg : ℕ → PyStr)
    (mc : PRow → Option PyStr) : List PRow → ℕ → ApiState → ApiState
  | [], _, st => st
  | r :: rs, idx, st =>
    if r.amount ≤ 0 then
      processRows pOk msg mc rs (idx + 1) { st with skipped := st.skipped + 1 }
    else
      let st1 :=
        match mc r with
        | some _ => st
        | none => { st with uncategorized := st.uncategorized + 1 }
      let st2 := { st1 with attempts := st1.attempts ++ [r] }
      if pOk idx then
        processRows pOk msg mc rs (idx + 1)
          { st2 with db := st2.db ++ [r], imported := st2.imported + 1 }
      else
        processRows pOk msg mc rs (idx + 1)
          { st2 with failedRows := st2.failedRows ++ [⟨idx + 1, msg idx, r⟩] }

/-- The starting state of one API run over a store `db0`. -/
def initState (db0 : List PRow) : ApiState :=
  { db := db0, imported := 0, skipped := 0, uncategorized := 0,
    failedRows := [], attempts := [] }

/-- The `summary` object assembled at the end of `import_excel`. -/
structure Summary where
  total_rows : ℕ
  imported : ℕ
  failed : ℕ
  uncategorized : ℕ
  skipped : ℕ
  deriving DecidableEq

/-- `summary = {...}` from the final loop state and the parse errors. -/
def apiSummary (rows : List PRow) (parseErrors : List PyStr)
    (st : ApiState) : Summary :=
  { total_rows := rows.length, imported := st.imported,
    failed := st.failedRows.length + parseErrors.length,
    uncategorized := st.uncategorized, skipped := st.skipped }

/-! ## The offline chunked import (`import_excel_local`) -/

/-- One `failed_rows` entry of the script (no row index is recorded). -/
structure ScriptFailed where
  emsg : PyStr
  rdata : PRow
  deriving DecidableEq

/-- Whether the store holds an expense with the given id, after a
successful `UUID(...)` conversion (`uuidOk`). -/
def existsInDb (db : List PRow) (s : PyStr) : Bool :=
  db.any (fun e => e.pid == some s)

/-- The per-row loop of `process_batch`, accumulating
(imported, uncategorized, failed entries, pending session adds):
non-positive amounts are skipped; with `--skip-existing`, a row whose id
converts and is found in the store is skipped; a row-level exception
(`rowErr`) is caught and recorded; otherwise the row is added to the
session. -/
def batchLoop (skipEx : Bool) (uuidOk : PyStr → Bool)
    (mc : PRow → Option PyStr) (rowErr : PRow → Option PyStr)
    (db : List PRow) :
    List PRow → ℕ × ℕ × List ScriptFailed × List PRow →
    ℕ × ℕ × List ScriptFailed × List PRow
  | [], acc => acc
  | r :: rs, (imp, unc, frs, pending) =>
    if r.amount ≤ 0 then
      batchLoop skipEx uuidOk mc rowErr db rs (imp, unc, frs, pending)
    else
      let dedup :=
        skipEx && (match r.pid with
          | some s => uuidOk s && existsInDb db s
          | none => false)
      if dedup then batchLoop skipEx uuidOk mc rowErr db rs (imp, unc, frs, pending)
      else
        match rowErr r with
        | some e =>
          batchLoop skipEx uuidOk mc rowErr db rs (imp, unc, frs ++ [⟨e, r⟩], pending)
        | none =>
          let unc2 := if (mc r).isNone then unc + 1 else unc
          batchLoop skipEx uuidOk mc rowErr db rs
            (imp + 1, unc2, frs, pending ++ [r])

/-- The result of `process_batch`: its returned tuple plus the store after
the commit or rollback. -/
structure BatchResult where
  imported : ℕ
  failedCount : ℕ
  uncategorized : ℕ
  failedRows : List ScriptFailed
  db : List PRow
  deriving DecidableEq

/-- `process_batch`: run the per-row loop, then commit the whole batch; a
commit failure rolls the store back, marks every row of the batch as
failed, and zeroes the imported and uncategorized counts. -/
def processBatch (skipEx : Bool) (uuidOk : PyStr → Bool)
    (mc : PRow → Option PyStr) (rowErr : PRow → Option PyStr)
    (commitOk : Bool) (cmsg : PyStr) (batch : List PRow) (db : List PRow) :
    BatchResult :=
  let (imp, unc, frs, pending) :=
    batchLoop skipEx uuidOk mc rowErr db batch (0, 0, [], [])
  if commitOk then
    { imported := imp, failedCount := frs.length, uncategorized := unc,
      failedRows := frs, db := db ++ pending }
  else
    let allFailed := frs ++ batch.map
      (fun r => ⟨"Batch commit failed: ".data ++ cmsg, r⟩)
    { imported := 0, failedCount := allFailed.length, uncategorized := 0,
      failedRows := allFailed, db := db }

/-- The accumulated state of the script main loop. -/
structure ScriptState where
  imported : ℕ
  failedCount : ℕ
  skipped : ℕ
  uncategorized : ℕ
  failedRows : List ScriptFailed
  db : List PRow
  deriving DecidableEq

/-- The `for batch_num in range(total_batches)` loop: per chunk, count and
drop non-positive amounts, skip an emptied chunk, otherwise run
`process_batch` and fold its result into the totals.  `commitOk`/`cmsg`
are indexed by chunk number. -/
def runBatches (skipEx : Bool) (uuidOk : PyStr → Bool)
    (mc : PRow → Option PyStr) (rowErr : PRow → Option PyStr)
    (commitOk : ℕ → Bool) (cmsg : ℕ → PyStr) :
    List (List PRow) → ℕ → ScriptState → ScriptState
  | [], _, st => st
  | b :: bs, i, st =>
    let skippedIn := b.countP (fun r => r.amount ≤ 0)
    let b2 := b.filter (fun r => 0 < r.amount)
    if b2.isEmpty then
      runBatches skipEx uuidOk mc rowErr commitOk cmsg bs (i + 1)
        { st with skipped := st.skipped + skippedIn }
    else
      let res := processBatch skipEx uuidOk mc rowErr (commitOk i) (cmsg i) b2 st.db
      runBatches skipEx uuidOk mc rowErr commitOk cmsg bs (i + 1)
        { imported := st.imported + res.imported,
          failedCount := st.failedCount + res.failedCount,
          skipped := st.skipped + skippedIn,
          uncategorized := st.uncategorized + res.uncategorized,
          failedRows := st.failedRows ++ res.failedRows,
          db := res.db }

/-- Slicing `expenses_data` into chunks of `batch_size`, by fuel (the fuel
`l.length` always suffices). -/
def chunkAux (n : ℕ) : ℕ → List PRow → List (List PRow)
  | 0, _ => []
  | _, [] => []
  | fuel + 1, x :: xs => (x :: xs.take (n - 1)) :: chunkAux n fuel (xs.drop (n - 1))

/-- The batches `expenses_data[start:end]` of the script main loop
(faithful for `batch_size ≥ 1`). -/
def chunkList (n : ℕ) (l : List PRow) : List (List PRow) :=
  chunkAux n l.length l

/-- The whole script run over the parsed rows. -/
def scriptRun (skipEx : Bool) (uuidOk : PyStr → Bool)
    (mc : PRow → Option PyStr) (rowErr : PRow → Option PyStr)
    (commitOk : ℕ → Bool) (cmsg : ℕ → PyStr) (batchSize : ℕ)
    (rows : List PRow) (db0 : List PRow) : ScriptState :=
  runBatches skipEx uuidOk mc rowErr commitOk cmsg (chunkList batchSize rows) 0
    { imported := 0, failedCount := 0, skipped := 0, uncategorized := 0,
      failedRows := [], db := db0 }

/-- The API processing loop as `import_excel` invokes it: enumeration
starts at 1, counters start at zero over the store `db0`. -/
def apiRun (pOk : ℕ → Bool) (msg : ℕ → PyStr) (mc : PRow → Option PyStr)
    (rows : List PRow) (db0 : List PRow) : ApiState :=
  processRows pOk msg mc rows 1 (initState db0)

/-- Whether a cell value is a native `date`/`datetime` object (the branches
of `_validate_row` that bypass `_parse_date`). -/
def CellValue.isDateLike : CellValue → Bool
  | .date _ => true
  | .dtime _ => true
  | _ => false

/-- The maximal score over the categories the `match` fold actually scores
(those with a nonempty keyword list). -/
def maxScoreOf (km : List (PyStr × List PyStr)) (dwords : List PyStr)
    (ndesc : PyStr) : List Categ → ℕ
  | [] => 0
  | c :: cs =>
    if (kmGet km c.cname).isEmpty then maxScoreOf km dwords ndesc cs
    else max (catScore km dwords ndesc c) (maxScoreOf km dwords ndesc cs)

/-! ## Characterizing the API loop -/

/-- The rows the API loop persists: positive amount and a successful
commit, in order, with their enumeration indices. -/
def selImported (pOk : ℕ → Bool) : ℕ → List PRow → List PRow
  | _, [] => []
  | i, r :: rs =>
    if r.amount ≤ 0 then selImported pOk (i + 1) rs
    else if pOk i then r :: selImported pOk (i + 1) rs
    else selImported pOk (i + 1) rs

/-- The failed-row entries the API loop records. -/
def selFailed (pOk : ℕ → Bool) (msg : ℕ → PyStr) :
    ℕ → List PRow → List FailedEntry
  | _, [] => []
  | i, r :: rs =>
    if r.amount ≤ 0 then selFailed pOk msg (i + 1) rs
    else if pOk i then selFailed pOk msg (i + 1) rs
    else ⟨i + 1, msg i, r⟩ :: selFailed pOk msg (i + 1) rs

theorem processRows_eq (pOk : ℕ → Bool) (msg : ℕ → PyStr)
    (mc : PRow → Option PyStr) :
    ∀ (rows : List PRow) (idx : ℕ) (st : ApiState),
    processRows pOk msg mc rows idx st =
      { db := st.db ++ selImported pOk idx rows,
        imported := st.imported + (selImported pOk idx rows).length,
        skipped := st.skipped + rows.countP (fun r => decide (r.amount ≤ 0)),
        uncategorized := st.uncategorized +
          rows.countP (fun r => !(decide (r.amount ≤ 0)) && (mc r).isNone),
        failedRows := st.failedRows ++ selFailed pOk msg idx rows,
        attempts := st.attempts ++
          rows.filter (fun r => !(decide (r.amount ≤ 0))) } := by
  intro rows
  induction rows with
  | nil => intro idx st; simp [processRows, selImported, selFailed]
  | cons r rs ih =>
    intro idx st
    by_cases hle : r.amount ≤ 0
    · simp only [processRows, hle, if_pos, ih, selImported, selFailed,
        List.countP_cons, List.filter_cons, decide_eq_true_eq]
      simp [hle]
      omega
    · cases hmc : mc r with
      | none =>
        by_cases hp : pOk idx = true
        · simp only [processRows, ih, selImported, selFailed, List.countP_cons,
            List.filter_cons, hmc, hp]
          simp [hle, hp, hmc]
          try omega
        · simp only [processRows, ih, selImported, selFailed, List.countP_cons,
            List.filter_cons, hmc]
          simp [hle, hp, hmc]
          try omega
      | some c =>
        by_cases hp : pOk idx = true
        · simp only [processRows, ih, selImported, selFailed, List.countP_cons,
            List.filter_cons, hmc, hp]
          simp [hle, hp, hmc]
          try omega
        · simp only [processRows, ih, selImported, selFailed, List.countP_cons,
            List.filter_cons, hmc]
          simp [hle, hp, hmc]
          try omega

theorem selImported_pos (pOk : ℕ → Bool) :
    ∀ (idx : ℕ) (rows : List PRow) (r : PRow),
    r ∈ selImported pOk idx rows → 0 < r.amount := by
  intro idx rows
  induction rows generalizing idx with
  | nil => intro r h; simp [selImported] at h
  | cons x xs ih =>
    intro r h
    by_cases hle : x.amount ≤ 0
    · simp only [selImported, if_pos hle] at h
      exact ih _ r h
    · simp only [selImported, if_neg hle] at h
      by_cases hp : pOk idx = true
      · simp only [hp, if_pos] at h
        rcases List.mem_cons.mp h with h | h
        · subst h; exact lt_of_not_ge hle
        · exact ih _ r h
      · simp only [hp] at h
        simp at h
        exact ih _ r h

theorem selFailed_pos (pOk : ℕ → Bool) (msg : ℕ → PyStr) :
    ∀ (idx : ℕ) (rows : List PRow) (e : FailedEntry),
    e ∈ selFailed pOk msg idx rows → 0 < e.rdata.amount := by
  intro idx rows
  induction rows generalizing idx with
  | nil => intro e h; simp [selFailed] at h
  | cons x xs ih =>
    intro e h
    by_cases hle : x.amount ≤ 0
    · simp only [selFailed, if_pos hle] at h
      exact ih _ e h
    · simp only [selFailed, if_neg hle] at h
      by_cases hp : pOk idx = true
      · simp only [hp, if_pos] at h
        exact ih _ e h
      · simp only [hp] at h
        simp at h
        rcases h with h | h
        · subst h; exact lt_of_not_ge hle
        · exact ih _ e h

theorem sel_lengths (pOk : ℕ → Bool) (msg : ℕ → PyStr) :
    ∀ (idx : ℕ) (rows : List PRow),
    (selImported pOk idx rows).length + (selFailed pOk msg idx rows).length +
      rows.countP (fun r => decide (r.amount ≤ 0)) = rows.length := by
  intro idx rows
  induction rows generalizing idx with
  | nil => simp [selImported, selFailed]
  | cons x xs ih =>
    have h2 := ih (idx + 1)
    by_cases hle : x.amount ≤ 0
    · simp [selImported, selFailed, hle, List.countP_cons]
      omega
    · by_cases hp : pOk idx = true
      · simp [selImported, selFailed, hle, hp, List.countP_cons]
        omega
      · simp [selImported, selFailed, hle, hp, List.countP_cons]
        omega

/-- Claim C10: at the end of an API import run, every validated row is
accounted for exactly once — imported + skipped + per-row persistence
failures = total_rows, where total_rows counts the validated rows only,
and the summary failed count is the per-row persistence failures plus the
parse/validation error count. -/
theorem c10_accounting (pOk : ℕ → Bool) (msg : ℕ → PyStr)
    (mc : PRow → Option PyStr) (rows : List PRow) (db0 : List PRow)
    (parseErrors : List PyStr) :
    (apiSummary rows parseErrors (apiRun pOk msg mc rows db0)).imported +
        (apiSummary rows parseErrors (apiRun pOk msg mc rows db0)).skipped +
        (apiRun pOk msg mc rows db0).failedRows.length =
      (apiSummary rows parseErrors (apiRun pOk msg mc rows db0)).total_rows ∧
    (apiSummary rows parseErrors (apiRun pOk msg mc rows db0)).failed =
      (apiRun pOk msg mc rows db0).failedRows.length + parseErrors.length := by
  constructor
  · simp only [apiSummary, apiRun, initState]
    rw [processRows_eq]
    have := sel_lengths pOk msg 1 rows
    simp only [List.nil_append, Nat.zero_add]
    omega
  · simp [apiSummary]

/-- Claim C7: a validated row with non-positive amount is counted as
skipped and nothing else happens to it: the skipped count is exactly the
number of such rows, persistence is only ever attempted on rows of
positive amount, the store gains only rows of positive amount, no failed
entry carries such a row, and the attempted rows are precisely the
positive-amount rows in order, split between imported and failed. -/
theorem c7_nonpositive_skipped (pOk : ℕ → Bool) (msg : ℕ → PyStr)
    (mc : PRow → Option PyStr) (rows : List PRow) (db0 : List PRow) :
    (apiRun pOk msg mc rows db0).skipped =
      rows.countP (fun r => decide (r.amount ≤ 0)) ∧
    (apiRun pOk msg mc rows db0).attempts =
      rows.filter (fun r => !(decide (r.amount ≤ 0))) ∧
    (∀ r ∈ (apiRun pOk msg mc rows db0).attempts, 0 < r.amount) ∧
    (∀ r ∈ (apiRun pOk msg mc rows db0).db, r ∈ db0 ∨ 0 < r.amount) ∧
    (∀ e ∈ (apiRun pOk msg mc rows db0).failedRows, 0 < e.rdata.amount) ∧
    (apiRun pOk msg mc rows db0).imported +
        (apiRun pOk msg mc rows db0).failedRows.length =
      (rows.filter (fun r => !(decide (r.amount ≤ 0)))).length := by
  simp only [apiRun, initState]
  rw [processRows_eq]
  simp only [List.nil_append, Nat.zero_add]
  refine ⟨by trivial, by trivial, ?_, ?_, ?_, ?_⟩
  · intro r hr
    rcases List.mem_filter.mp hr with ⟨-, hpos⟩
    simp only [Bool.not_eq_true', decide_eq_false_iff_not] at hpos
    exact lt_of_not_ge hpos
  · intro r hr
    rcases List.mem_append.mp hr with h | h
    · exact Or.inl h
    · exact Or.inr (selImported_pos pOk 1 rows r h)
  · intro e he
    exact selFailed_pos pOk msg 1 rows e he
  · have h1 := sel_lengths pOk msg 1 rows
    have h2 : rows.countP (fun r => !(decide (r.amount ≤ 0))) +
        rows.countP (fun r => decide (r.amount ≤ 0)) = rows.length := by
      have h0 := @List.length_eq_countP_add_countP PRow
        (fun r => decide (r.amount ≤ 0)) rows
      have h4 : (fun r : PRow => !(decide (r.amount ≤ 0))) =
          (fun r : PRow => decide (¬(decide (r.amount ≤ 0) = true))) := by
        funext r
        by_cases h : r.amount ≤ 0 <;> simp [h]
      rw [h4]
      omega
    have h3 : rows.countP (fun r => !(decide (r.amount ≤ 0))) =
        (rows.filter (fun r => !(decide (r.amount ≤ 0)))).length := by
      simp [List.countP_eq_length_filter]
    omega

/-- Witness for C7 on a concrete two-row batch: one negative-amount row,
one positive, all commits succeeding. -/
theorem c7_nonpositive_skipped_witness :
    (apiRun (fun _ => true) (fun _ => []) (fun _ => none)
        [⟨none, -1, [], 0⟩, ⟨none, 5, [], 0⟩] []).skipped = 1 ∧
      (0 : ℚ) < (⟨none, 5, [], 0⟩ : PRow).amount := by
  have h := c7_nonpositive_skipped (fun _ => true) (fun _ => [])
    (fun _ => none) [⟨none, -1, [], 0⟩, ⟨none, 5, [], 0⟩] []
  refine ⟨?_, ?_⟩
  · rw [h.1]; decide
  · exact h.2.2.1 ⟨none, 5, [], 0⟩ (by rw [h.2.1]; decide)

/-! ## Failure isolation lemmas -/

theorem runBatches_failed_append (skipEx : Bool) (uuidOk : PyStr → Bool)
    (mc : PRow → Option PyStr) (rowErr : PRow → Option PyStr)
    (commitOk : ℕ → Bool) (cmsg : ℕ → PyStr) :
    ∀ (bs : List (List PRow)) (i : ℕ) (st : ScriptState),
    ∃ tail, (runBatches skipEx uuidOk mc rowErr commitOk cmsg bs i st).failedRows =
      st.failedRows ++ tail := by
  intro bs
  induction bs with
  | nil => intro i st; exact ⟨[], by simp [runBatches]⟩
  | cons b rest ih =>
    intro i st
    by_cases hemp : (b.filter (fun r => 0 < r.amount)).isEmpty = true
    · simp only [runBatches, hemp, if_pos]
      exact ih (i + 1) _
    · simp only [runBatches, hemp]
      simp only [Bool.false_eq_true, if_false]
      obtain ⟨tail, htail⟩ := ih (i + 1) _
      exact ⟨_, by rw [htail]; exact List.append_assoc _ _ _⟩

theorem processBatch_commit_fail (skipEx : Bool) (uuidOk : PyStr → Bool)
    (mc : PRow → Option PyStr) (rowErr : PRow → Option PyStr)
    (cmsg : PyStr) (batch : List PRow) (db : List PRow) :
    (processBatch skipEx uuidOk mc rowErr false cmsg batch db).imported = 0 ∧
    (processBatch skipEx uuidOk mc rowErr false cmsg batch db).uncategorized = 0 ∧
    (processBatch skipEx uuidOk mc rowErr false cmsg batch db).db = db ∧
    (∀ r ∈ batch,
      (⟨"Batch commit failed: ".data ++ cmsg, r⟩ : ScriptFailed) ∈
        (processBatch skipEx uuidOk mc rowErr false cmsg batch db).failedRows) := by
  rcases hbl : batchLoop skipEx uuidOk mc rowErr db batch (0, 0, [], [])
    with ⟨imp, unc, frs, pending⟩
  simp only [processBatch, hbl, Bool.false_eq_true, if_false]
  refine ⟨by trivial, by trivial, by trivial, ?_⟩
  intro r hr
  simp only [List.mem_append, List.mem_map]
  exact Or.inr ⟨r, hr, rfl⟩

theorem runBatches_allfail (skipEx : Bool) (uuidOk : PyStr → Bool)
    (mc : PRow → Option PyStr) (rowErr : PRow → Option PyStr)
    (commitOk : ℕ → Bool) (cmsg : ℕ → PyStr)
    (hfail : ∀ j, commitOk j = false) :
    ∀ (bs : List (List PRow)) (i : ℕ) (st : ScriptState),
    (runBatches skipEx uuidOk mc rowErr commitOk cmsg bs i st).imported =
        st.imported ∧
      (runBatches skipEx uuidOk mc rowErr commitOk cmsg bs i st).db = st.db ∧
      (∀ b ∈ bs, ∀ r ∈ b, 0 < r.amount →
        ∃ m, (⟨m, r⟩ : ScriptFailed) ∈
          (runBatches skipEx uuidOk mc rowErr commitOk cmsg bs i st).failedRows) := by
  intro bs
  induction bs with
  | nil =>
    intro i st
    refine ⟨rfl, rfl, ?_⟩
    intro b hb
    simp at hb
  | cons b rest ih =>
    intro i st
    by_cases hemp : (b.filter (fun r => 0 < r.amount)).isEmpty = true
    · simp only [runBatches, hemp, if_pos]
      refine ⟨?_, ?_, ?_⟩
      · rw [(ih (i + 1) _).1]
      · rw [(ih (i + 1) _).2.1]
      · intro b2 hb2 r hr hpos
        rcases List.mem_cons.mp hb2 with hb2 | hb2
        · subst hb2
          exfalso
          have hmemf : r ∈ b2.filter (fun r => 0 < r.amount) :=
            List.mem_filter.mpr ⟨hr, by simpa using hpos⟩
          rw [List.isEmpty_iff] at hemp
          simp [hemp] at hmemf
        · exact (ih (i + 1) _).2.2 b2 hb2 r hr hpos
    · have hres := processBatch_commit_fail skipEx uuidOk mc rowErr (cmsg i)
        (b.filter (fun r => 0 < r.amount)) st.db
      rw [← hfail i] at hres
      simp only [runBatches, hemp]
      simp only [Bool.false_eq_true, if_false]
      refine ⟨?_, ?_, ?_⟩
      · rw [(ih (i + 1) _).1]
        show st.imported + _ = st.imported
        rw [hres.1]
        omega
      · rw [(ih (i + 1) _).2.1]
        exact hres.2.2.1
      · intro b2 hb2 r hr hpos
        rcases List.mem_cons.mp hb2 with hb2 | hb2
        · subst hb2
          refine ⟨"Batch commit failed: ".data ++ cmsg i, ?_⟩
          obtain ⟨tail, htail⟩ := runBatches_failed_append skipEx uuidOk mc
            rowErr commitOk cmsg rest (i + 1) _
          rw [htail]
          refine List.mem_append.mpr (Or.inl ?_)
          show _ ∈ st.failedRows ++ (processBatch skipEx uuidOk mc rowErr
            (commitOk i) (cmsg i) (b2.filter (fun r => 0 < r.amount)) st.db).failedRows
          refine List.mem_append.mpr (Or.inr ?_)
          exact hres.2.2.2 r (List.mem_filter.mpr ⟨hr, by simpa using hpos⟩)
        · exact (ih (i + 1) _).2.2 b2 hb2 r hr hpos

theorem chunk_cover (n : ℕ) :
    ∀ (fuel : ℕ) (l : List PRow), l.length ≤ fuel →
    ∀ r ∈ l, ∃ b ∈ chunkAux n fuel l, r ∈ b := by
  intro fuel
  induction fuel with
  | zero =>
    intro l hl r hr
    rw [Nat.le_zero, List.length_eq_zero] at hl
    subst hl
    simp at hr
  | succ fuel ih =>
    intro l hl r hr
    match l with
    | [] => simp at hr
    | x :: xs =>
      rcases List.mem_cons.mp hr with hcase | hcase
      · exact ⟨x :: xs.take (n - 1), List.mem_cons_self _ _,
          by rw [hcase]; exact List.mem_cons_self _ _⟩
      · have hsplit := List.take_append_drop (n - 1) xs
        rw [← hsplit] at hcase
        rcases List.mem_append.mp hcase with hcase2 | hcase2
        · exact ⟨x :: xs.take (n - 1), List.mem_cons_self _ _,
            List.mem_cons_of_mem _ hcase2⟩
        · have hlen : (xs.drop (n - 1)).length ≤ fuel := by
            have h1 : xs.length ≤ fuel := by
              simpa using Nat.le_of_succ_le_succ (by simpa using hl)
            have h2 := List.length_drop (n - 1) xs
            omega
          obtain ⟨b, hb, hrb⟩ := ih (xs.drop (n - 1)) hlen r hcase2
          exact ⟨b, List.mem_cons_of_mem _ hb, hrb⟩

/-- Claim C8: persistence-failure isolation.  First, in the API loop a
failing commit on one row is caught: the run continues on the remaining
rows, the store and imported count are untouched by that row, and the row
is recorded in failed_rows with its index, error message and raw data.
Second, in the offline chunked import a whole-chunk commit failure leaves
the store unchanged, zeroes the imported count of that chunk, and marks
every row of the chunk as failed.  Third, even with every chunk commit
failing, the script run completes: nothing is imported, the store is
unchanged, and every positive-amount row is recorded as failed. -/
theorem c8_failure_isolation :
    (∀ (pOk : ℕ → Bool) (msg : ℕ → PyStr) (mc : PRow → Option PyStr)
      (r : PRow) (rs : List PRow) (idx : ℕ) (st : ApiState),
      ¬(r.amount ≤ 0) → pOk idx = false →
      processRows pOk msg mc (r :: rs) idx st =
        processRows pOk msg mc rs (idx + 1)
          { st with
            uncategorized := st.uncategorized +
              (if (mc r).isNone then 1 else 0),
            attempts := st.attempts ++ [r],
            failedRows := st.failedRows ++ [⟨idx + 1, msg idx, r⟩] }) ∧
    (∀ (skipEx : Bool) (uuidOk : PyStr → Bool) (mc : PRow → Option PyStr)
      (rowErr : PRow → Option PyStr) (cmsg : PyStr) (batch : List PRow)
      (db : List PRow),
      (processBatch skipEx uuidOk mc rowErr false cmsg batch db).imported = 0 ∧
      (processBatch skipEx uuidOk mc rowErr false cmsg batch db).db = db ∧
      (∀ r ∈ batch,
        (⟨"Batch commit failed: ".data ++ cmsg, r⟩ : ScriptFailed) ∈
          (processBatch skipEx uuidOk mc rowErr false cmsg batch db).failedRows)) ∧
    (∀ (skipEx : Bool) (uuidOk : PyStr → Bool) (mc : PRow → Option PyStr)
      (rowErr : PRow → Option PyStr) (commitOk : ℕ → Bool) (cmsg : ℕ → PyStr)
      (n : ℕ) (rows : List PRow) (db0 : List PRow),
      (∀ j, commitOk j = false) →
      (scriptRun skipEx uuidOk mc rowErr commitOk cmsg n rows db0).imported = 0 ∧
      (scriptRun skipEx uuidOk mc rowErr commitOk cmsg n rows db0).db = db0 ∧
      (∀ r ∈ rows, 0 < r.amount → ∃ m, (⟨m, r⟩ : ScriptFailed) ∈
        (scriptRun skipEx uuidOk mc rowErr commitOk cmsg n rows db0).failedRows)) := by
  refine ⟨?_, ?_, ?_⟩
  · intro pOk msg mc r rs idx st hle hp
    cases hmc : mc r with
    | none => simp [processRows, hle, hp, hmc]
    | some c => simp [processRows, hle, hp, hmc]
  · intro skipEx uuidOk mc rowErr cmsg batch db
    have h := processBatch_commit_fail skipEx uuidOk mc rowErr cmsg batch db
    exact ⟨h.1, h.2.2.1, h.2.2.2⟩
  · intro skipEx uuidOk mc rowErr commitOk cmsg n rows db0 hfail
    have h := runBatches_allfail skipEx uuidOk mc rowErr commitOk cmsg hfail
      (chunkList n rows) 0
      { imported := 0, failedCount := 0, skipped := 0, uncategorized := 0,
        failedRows := [], db := db0 }
    refine ⟨h.1, h.2.1, ?_⟩
    intro r hr hpos
    obtain ⟨b, hb, hrb⟩ := chunk_cover n rows.length rows (Nat.le_refl _) r hr
    exact h.2.2 b hb r hrb hpos

/-- Witness for C8 at concrete inputs: a failing single-row commit in the
API loop, and a one-chunk script run whose commit fails. -/
theorem c8_failure_isolation_witness :
    processRows (fun _ => false) (fun _ => ("e".data)) (fun _ => none)
        [⟨none, 5, [], 0⟩] 1 (initState []) =
      processRows (fun _ => false) (fun _ => ("e".data)) (fun _ => none)
        [] 2
        { initState [] with
          uncategorized := (initState []).uncategorized + 1,
          attempts := [⟨none, 5, [], 0⟩],
          failedRows := [⟨2, ("e".data), ⟨none, 5, [], 0⟩⟩] } ∧
    (scriptRun false (fun _ => true) (fun _ => none) (fun _ => none)
        (fun _ => false) (fun _ => []) 2 [⟨none, 5, [], 0⟩] []).imported = 0 := by
  constructor
  · have h := c8_failure_isolation.1 (fun _ => false) (fun _ => ("e".data))
      (fun _ => none) ⟨none, 5, [], 0⟩ [] 1 (initState [])
      (by decide) (by decide)
    simpa [initState] using h
  · exact (c8_failure_isolation.2.2 false (fun _ => true) (fun _ => none)
      (fun _ => none) (fun _ => false) (fun _ => []) 2 [⟨none, 5, [], 0⟩] []
      (fun _ => rfl)).1

/-! ## Deduplicated re-import lemmas -/

theorem batchLoop_all_dedup (uuidOk : PyStr → Bool) (mc : PRow → Option PyStr)
    (rowErr : PRow → Option PyStr) (db : List PRow) :
    ∀ (batch : List PRow) (acc : ℕ × ℕ × List ScriptFailed × List PRow),
    (∀ r ∈ batch, 0 < r.amount ∧ ∃ s, r.pid = some s ∧ uuidOk s = true ∧
      existsInDb db s = true) →
    batchLoop true uuidOk mc rowErr db batch acc = acc := by
  intro batch
  induction batch with
  | nil =>
    intro acc h
    rcases acc with ⟨imp, unc, frs, pending⟩
    rfl
  | cons r rs ih =>
    intro acc hp
    obtain ⟨hpos, s, hps, hu, he⟩ := hp r (List.mem_cons_self _ _)
    rcases acc with ⟨imp, unc, frs, pending⟩
    have hnle : ¬(r.amount ≤ 0) := not_le.mpr hpos
    have hstep : batchLoop true uuidOk mc rowErr db (r :: rs)
        (imp, unc, frs, pending) =
        batchLoop true uuidOk mc rowErr db rs (imp, unc, frs, pending) := by
      simp [batchLoop, hnle, hps, hu, he]
    rw [hstep]
    exact ih _ (fun x hx => hp x (List.mem_cons_of_mem _ hx))

theorem runBatches_dedup (uuidOk : PyStr → Bool) (mc : PRow → Option PyStr)
    (rowErr : PRow → Option PyStr) (commitOk : ℕ → Bool) (cmsg : ℕ → PyStr)
    (db0 : List PRow) (hcommit : ∀ j, commitOk j = true) :
    ∀ (bs : List (List PRow)) (i : ℕ) (st : ScriptState), st.db = db0 →
    (∀ b ∈ bs, ∀ r ∈ b, 0 < r.amount ∧ ∃ s, r.pid = some s ∧ uuidOk s = true ∧
      existsInDb db0 s = true) →
    runBatches true uuidOk mc rowErr commitOk cmsg bs i st = st := by
  intro bs
  induction bs with
  | nil => intro i st hdb hall; rfl
  | cons b rest ih =>
    intro i st hdb hall
    have hbP := hall b (List.mem_cons_self _ _)
    have hcount : b.countP (fun r => decide (r.amount ≤ 0)) = 0 := by
      rw [List.countP_eq_zero]
      intro r hr
      simpa using not_le.mpr (hbP r hr).1
    have hfilter : b.filter (fun r => 0 < r.amount) = b := by
      rw [List.filter_eq_self]
      intro r hr
      simpa using (hbP r hr).1
    by_cases hemp : (b.filter (fun r => 0 < r.amount)).isEmpty = true
    · simp only [runBatches, hemp, if_pos, hcount]
      have : ({ st with skipped := st.skipped + 0 } : ScriptState) = st := by
        rcases st with ⟨a1, a2, a3, a4, a5, a6⟩
        simp
      rw [this]
      exact ih (i + 1) st hdb (fun b2 hb2 => hall b2 (List.mem_cons_of_mem _ hb2))
    · simp only [runBatches, hemp]
      simp only [Bool.false_eq_true, if_false]
      have hbl : batchLoop true uuidOk mc rowErr st.db
          (b.filter (fun r => 0 < r.amount)) (0, 0, [], []) = (0, 0, [], []) := by
        rw [hfilter, hdb]
        exact batchLoop_all_dedup uuidOk mc rowErr db0 b (0, 0, [], []) hbP
      have hres : processBatch true uuidOk mc rowErr (commitOk i) (cmsg i)
          (b.filter (fun r => 0 < r.amount)) st.db =
          { imported := 0, failedCount := 0, uncategorized := 0,
            failedRows := [], db := st.db } := by
        simp only [processBatch, hbl, hcommit i, if_pos]
        simp
      rw [hres, hcount]
      have heq : ({ imported := st.imported + 0,
                    failedCount := st.failedCount + 0,
                    skipped := st.skipped + 0,
                    uncategorized := st.uncategorized + 0,
                    failedRows := st.failedRows ++ [],
                    db := st.db } : ScriptState) = st := by
        rcases st with ⟨a1, a2, a3, a4, a5, a6⟩
        simp
      rw [heq]
      exact ih (i + 1) st hdb (fun b2 hb2 => hall b2 (List.mem_cons_of_mem _ hb2))

theorem chunk_subset (n : ℕ) :
    ∀ (fuel : ℕ) (l : List PRow) (b : List PRow), b ∈ chunkAux n fuel l →
    ∀ r ∈ b, r ∈ l := by
  intro fuel
  induction fuel with
  | zero =>
    intro l b hb
    simp [chunkAux] at hb
  | succ fuel ih =>
    intro l b hb r hr
    match l with
    | [] => simp [chunkAux] at hb
    | x :: xs =>
      rcases List.mem_cons.mp hb with hb2 | hb2
      · subst hb2
        rcases List.mem_cons.mp hr with hr2 | hr2
        · exact hr2 ▸ List.mem_cons_self _ _
        · exact List.mem_cons_of_mem _ (List.take_subset _ _ hr2)
      · exact List.mem_cons_of_mem _
          (List.drop_subset _ _ (ih (xs.drop (n - 1)) b hb2 r hr))

/-- Counterexample for C9: one row with amount 5 and an export id already
in the store, dedup enabled, commit healthy.  The run imports nothing and
fails nothing — but its skipped count is 0, not N = 1: dedup-skipped rows
are dropped from every summary count. -/
theorem c9_dedup_counterexample :
    (scriptRun true (fun _ => true) (fun _ => none) (fun _ => none)
        (fun _ => true) (fun _ => []) 200
        [⟨some ("aa".data), 5, [], 0⟩]
        [⟨some ("aa".data), 7, [], 0⟩]).imported = 0 ∧
    (scriptRun true (fun _ => true) (fun _ => none) (fun _ => none)
        (fun _ => true) (fun _ => []) 200
        [⟨some ("aa".data), 5, [], 0⟩]
        [⟨some ("aa".data), 7, [], 0⟩]).failedCount = 0 ∧
    ¬((scriptRun true (fun _ => true) (fun _ => none) (fun _ => none)
        (fun _ => true) (fun _ => []) 200
        [⟨some ("aa".data), 5, [], 0⟩]
        [⟨some ("aa".data), 7, [], 0⟩]).skipped =
      ([⟨some ("aa".data), 5, [], 0⟩] : List PRow).length) := by
  refine ⟨by decide, by decide, by decide⟩

/-- Claim C9 (amended): with dedup enabled, re-importing rows that all
carry store-resident export identifiers (and positive amounts), with
healthy commits, yields imported = 0 and failed = 0 (not failed = N): every
row is skipped before persistence and the store is unchanged — but the
summary skipped count stays 0 (it counts only non-positive amounts), so it
does not equal N. -/
theorem c9_dedup_reimport (uuidOk : PyStr → Bool) (mc : PRow → Option PyStr)
    (rowErr : PRow → Option PyStr) (commitOk : ℕ → Bool) (cmsg : ℕ → PyStr)
    (n : ℕ) (rows : List PRow) (db0 : List PRow)
    (hcommit : ∀ j, commitOk j = true)
    (hall : ∀ r ∈ rows, 0 < r.amount ∧ ∃ s, r.pid = some s ∧
      uuidOk s = true ∧ existsInDb db0 s = true) :
    (scriptRun true uuidOk mc rowErr commitOk cmsg n rows db0).imported = 0 ∧
    (scriptRun true uuidOk mc rowErr commitOk cmsg n rows db0).failedCount = 0 ∧
    (scriptRun true uuidOk mc rowErr commitOk cmsg n rows db0).failedRows = [] ∧
    (scriptRun true uuidOk mc rowErr commitOk cmsg n rows db0).skipped = 0 ∧
    (scriptRun true uuidOk mc rowErr commitOk cmsg n rows db0).db = db0 := by
  have h := runBatches_dedup uuidOk mc rowErr commitOk cmsg db0 hcommit
    (chunkList n rows) 0
    { imported := 0, failedCount := 0, skipped := 0, uncategorized := 0,
      failedRows := [], db := db0 }
    rfl
    (fun b hb r hr => hall r (chunk_subset n rows.length rows b hb r hr))
  unfold scriptRun
  rw [h]
  exact ⟨rfl, rfl, rfl, rfl, rfl⟩

/-- Witness for C9 (amended) at the concrete one-row re-import. -/
theorem c9_dedup_reimport_witness :
    (scriptRun true (fun _ => true) (fun _ => none) (fun _ => none)
        (fun _ => true) (fun _ => []) 200
        [⟨some ("ab".data), 5, [], 0⟩]
        [⟨some ("ab".data), 7, [], 0⟩]).imported = 0 ∧
    (scriptRun true (fun _ => true) (fun _ => none) (fun _ => none)
        (fun _ => true) (fun _ => []) 200
        [⟨some ("ab".data), 5, [], 0⟩]
        [⟨some ("ab".data), 7, [], 0⟩]).skipped = 0 := by
  have h := c9_dedup_reimport (fun _ => true) (fun _ => none) (fun _ => none)
    (fun _ => true) (fun _ => []) 200
    [⟨some ("ab".data), 5, [], 0⟩] [⟨some ("ab".data), 7, [], 0⟩]
    (fun _ => rfl)
    (by
      intro r hr
      rcases List.mem_singleton.mp hr with rfl
      exact ⟨by decide, ("ab".data), rfl, rfl, by decide⟩)
  exact ⟨h.1, h.2.2.2.1⟩

/-! ## Claim C2 -/

/-- Claim C2: for every row that reaches validation, date problems never
reject the row.  Every validation message is an amount or description
message (no date message exists); a missing date resolves to the current
date; an unparseable non-native date value (every parsing strategy
failing, i.e. the oracle returning none) also resolves to the current
date; and a present-but-unparseable amount always makes validation fail.
This holds for every `_parse_date` behaviour `pd`. -/
theorem c2_date_never_blocks (pd : CellValue → Option Date) (today : Date)
    (rd : RowData) :
    (∀ e ∈ (validateRow pd today rd).1,
      e = "Amount is required".data ∨
      (∃ v, rd.ramount = some v ∧ e = "Invalid amount: ".data ++ pyStr v) ∨
      e = "Description is required".data ∨
      e = "Description too long (max 500 characters)".data) ∧
    (rd.rdate = none → (validateRow pd today rd).2.vdate = today) ∧
    (∀ v, rd.rdate = some v → v.truthy = true → v.isDateLike = false →
      pd v = none → (validateRow pd today rd).2.vdate = today) ∧
    (∀ v, rd.ramount = some v → parseAmount v = none →
      (validateRow pd today rd).1 ≠ []) := by
  refine ⟨?_, ?_, ?_, ?_⟩
  · intro e he
    simp only [validateRow] at he
    rcases List.mem_append.mp he with hm | hm
    · cases ha : rd.ramount with
      | none =>
        rw [ha] at hm
        simp at hm
        exact Or.inl hm
      | some v =>
        rw [ha] at hm
        cases hp : parseAmount v with
        | none =>
          simp only [hp] at hm
          simp at hm
          exact Or.inr (Or.inl ⟨v, rfl, hm⟩)
        | some q =>
          simp only [hp] at hm
          simp at hm
    · cases hd : rd.rdescription with
      | none =>
        rw [hd] at hm
        simp at hm
        exact Or.inr (Or.inr (Or.inl hm))
      | some v =>
        rw [hd] at hm
        by_cases ht : v.truthy = true
        · simp only [ht, Bool.not_true] at hm
          by_cases hlen : 500 < (trimChars (pyStr v)).length
          · simp only [hlen, if_pos] at hm
            simp at hm
            exact Or.inr (Or.inr (Or.inr hm))
          · simp only [hlen] at hm
            simp at hm
        · simp only [Bool.not_eq_true] at ht
          simp only [ht, Bool.not_false] at hm
          simp at hm
          exact Or.inr (Or.inr (Or.inl hm))
  · intro hnone
    simp [validateRow, resolveDate, hnone]
  · intro v hv ht hdl hpd
    simp only [validateRow]
    simp only [resolveDate, hv, ht, Bool.not_true]
    cases v with
    | num q => simp [hpd]
    | str s => simp [hpd]
    | date d => simp [CellValue.isDateLike] at hdl
    | dtime d => simp [CellValue.isDateLike] at hdl
  · intro v hv hp
    simp only [validateRow, hv, hp]
    simp

/-- Witness for C2: a row whose date is an unparseable string and whose
amount does not parse, against the oracle that always fails. -/
theorem c2_date_never_blocks_witness :
    (validateRow (fun _ => none) 0
      { rdate := some (.str ("gibberish".data)),
        ramount := some (.str ("xx".data)),
        rdescription := some (.str ("ok".data)) }).2.vdate = 0 ∧
    (validateRow (fun _ => none) 0
      { rdate := some (.str ("gibberish".data)),
        ramount := some (.str ("xx".data)),
        rdescription := some (.str ("ok".data)) }).1 ≠ [] := by
  have h := c2_date_never_blocks (fun _ => none) 0
    { rdate := some (.str ("gibberish".data)),
      ramount := some (.str ("xx".data)),
      rdescription := some (.str ("ok".data)) }
  refine ⟨?_, ?_⟩
  · exact h.2.2.1 (.str ("gibberish".data)) rfl (by decide) (by decide) rfl
  · exact h.2.2.2 (.str ("xx".data)) rfl (by decide)

/-! ## Claim C1 -/

theorem splitChar_length (sep : Char) :
    ∀ s : PyStr, (splitChar sep s).length = s.count sep + 1 := by
  intro s
  induction s with
  | nil => simp [splitChar]
  | cons c cs ih =>
    by_cases hc : c = sep
    · subst hc
      simp [splitChar, List.count_cons, ih]
    · have hbeq : (c == sep) = false := by simpa using hc
      have hbeq2 : (sep == c) = false := by simpa using (Ne.symm hc)
      cases hsp : splitChar sep cs with
      | nil =>
        rw [hsp] at ih
        simp at ih
      | cons w ws =>
        have ih2 := ih
        rw [hsp] at ih2
        simp only [List.length_cons] at ih2
        simp only [splitChar, hbeq, Bool.false_eq_true, if_false, hsp]
        simp [List.count_cons, hbeq, hbeq2]
        omega

/-- Counterexample for C1: the code maps the string `1.234,56` to 123456,
not to 1234.56 — the comma is stripped first, and the lone remaining
period with five digits after it is treated as a thousands separator. -/
theorem c1_amount_parsing_counterexample :
    parseAmount (.str ("1.234,56".data)) = some 123456 ∧
    ¬(parseAmount (.str ("1.234,56".data)) = some (1234.56 : ℚ)) := by
  have h0 : parseAmount (.str ("1.234,56".data)) =
      pyFloat (cleanDots (stripAmount (trimChars ("1.234,56".data)))) := rfl
  have h1 : pyFloatParts (cleanDots (stripAmount (trimChars ("1.234,56".data)))) =
      some (false, 123456, 0, 0) := by decide
  constructor
  · rw [h0, pyFloat, h1]
    norm_num [partsVal]
  · rw [h0, pyFloat, h1]
    norm_num [partsVal]

/-- Claim C1 (amended): the concrete mappings 1.000.000 to 1000000,
1.234,56 to 123456 (the comma is stripped with the other currency noise,
then the single period with more than two trailing digits is a thousands
separator), 1.5 to 1.5, Rp 50.000 to 50000; and the general rules — after
stripping currency symbols, commas and whitespace: more than one period
strips all periods, a single period with more than two digits after it is
a thousands separator, any other single period is the decimal point, and
no period leaves the string as is. -/
theorem c1_amount_parsing :
    parseAmount (.str ("1.000.000".data)) = some 1000000 ∧
    parseAmount (.str ("1.234,56".data)) = some 123456 ∧
    parseAmount (.str ("1.5".data)) = some (3 / 2 : ℚ) ∧
    parseAmount (.str ("Rp 50.000".data)) = some 50000 ∧
    (∀ s : PyStr, ¬s.isEmpty = true →
      parseAmount (.str s) =
        pyFloat (cleanDots (stripAmount (trimChars s)))) ∧
    (∀ t : PyStr, 1 < t.count '.' →
      cleanDots t = t.filter (fun c => !(c == '.'))) ∧
    (∀ t : PyStr, t.count '.' = 1 →
      2 < ((splitChar '.' t).getD 1 []).length →
      cleanDots t = t.filter (fun c => !(c == '.'))) ∧
    (∀ t : PyStr, t.count '.' = 1 →
      ((splitChar '.' t).getD 1 []).length ≤ 2 → cleanDots t = t) ∧
    (∀ t : PyStr, t.count '.' = 0 → cleanDots t = t) := by
  refine ⟨?_, ?_, ?_, ?_, ?_, ?_, ?_, ?_, ?_⟩
  · have h1 : pyFloatParts (cleanDots (stripAmount (trimChars ("1.000.000".data)))) =
        some (false, 1000000, 0, 0) := by decide
    rw [show parseAmount (.str ("1.000.000".data)) =
      pyFloat (cleanDots (stripAmount (trimChars ("1.000.000".data)))) from rfl,
      pyFloat, h1]
    norm_num [partsVal]
  · have h1 : pyFloatParts (cleanDots (stripAmount (trimChars ("1.234,56".data)))) =
        some (false, 123456, 0, 0) := by decide
    rw [show parseAmount (.str ("1.234,56".data)) =
      pyFloat (cleanDots (stripAmount (trimChars ("1.234,56".data)))) from rfl,
      pyFloat, h1]
    norm_num [partsVal]
  · have h1 : pyFloatParts (cleanDots (stripAmount (trimChars ("1.5".data)))) =
        some (false, 1, 5, 1) := by decide
    rw [show parseAmount (.str ("1.5".data)) =
      pyFloat (cleanDots (stripAmount (trimChars ("1.5".data)))) from rfl,
      pyFloat, h1]
    norm_num [partsVal]
  · have h1 : pyFloatParts (cleanDots (stripAmount (trimChars ("Rp 50.000".data)))) =
        some (false, 50000, 0, 0) := by decide
    rw [show parseAmount (.str ("Rp 50.000".data)) =
      pyFloat (cleanDots (stripAmount (trimChars ("Rp 50.000".data)))) from rfl,
      pyFloat, h1]
    norm_num [partsVal]
  · intro s hs
    simp only [parseAmount, CellValue.truthy, pyStr, hs]
    simp
  · intro t ht
    simp [cleanDots, ht]
  · intro t h1 h2
    have hlen : (splitChar '.' t).length = 2 := by
      rw [splitChar_length, h1]
    simp only [cleanDots]
    rw [if_neg (show ¬1 < t.count '.' by omega)]
    rw [if_pos h1]
    rw [if_pos (show 1 < (splitChar '.' t).length ∧
      2 < ((splitChar '.' t).getD 1 []).length from ⟨by omega, h2⟩)]
  · intro t h1 h2
    simp only [cleanDots]
    rw [if_neg (show ¬1 < t.count '.' by omega)]
    rw [if_pos h1]
    rw [if_neg (show ¬(1 < (splitChar '.' t).length ∧
      2 < ((splitChar '.' t).getD 1 []).length) from
      fun hcon => absurd hcon.2 (by omega))]
  · intro t h0
    simp only [cleanDots]
    rw [if_neg (show ¬1 < t.count '.' by omega)]
    rw [if_neg (show ¬t.count '.' = 1 by omega)]

/-- Witness for C1 (amended) at concrete separator shapes. -/
theorem c1_amount_parsing_witness :
    parseAmount (.str ("7".data)) =
      pyFloat (cleanDots (stripAmount (trimChars ("7".data)))) ∧
    cleanDots ("1.2.3".data) = ("123".data) ∧
    cleanDots ("50.000".data) = ("50000".data) ∧
    cleanDots ("1.5".data) = ("1.5".data) ∧
    cleanDots ("15".data) = ("15".data) := by
  have h := c1_amount_parsing
  refine ⟨h.2.2.2.2.1 ("7".data) (by decide), ?_, ?_, ?_, ?_⟩
  · have := h.2.2.2.2.2.1 ("1.2.3".data) (by decide)
    rw [this]
    decide
  · have := h.2.2.2.2.2.2.1 ("50.000".data) (by decide) (by decide)
    rw [this]
    decide
  · have := h.2.2.2.2.2.2.2.1 ("1.5".data) (by decide) (by decide)
    rw [this]
  · exact h.2.2.2.2.2.2.2.2 ("15".data) (by decide)

/-! ## Claim C3 -/

set_option maxHeartbeats 1000000 in
theorem parseRows_errors_head (pd : CellValue → Option Date) (today : Date)
    (cm : ColumnMap) :
    ∀ (rows : List (List (Option CellValue))) (n : ℕ),
    ∀ e ∈ (parseRows pd today cm rows n).2, e.head? = some 'R' := by
  intro rows
  induction rows with
  | nil =>
    intro n e he
    simp [parseRows] at he
  | cons cells rest ih =>
    intro n e he
    simp only [parseRows, parseRowStep] at he
    split at he
    · exact ih (n + 1) e he
    · split at he
      · exact ih (n + 1) e he
      · simp only [List.mem_cons] at he
        rcases he with he | he
        · subst he
          rfl
        · exact ih (n + 1) e he

/-- Counterexample for C3: a header naming only amount and description
leaves the minimum required set incomplete (no date), yet column detection
does not fail — the map is nonempty and `parse` returns no structural
error (and no rows), instead of the claimed empty-map-plus-error outcome. -/
theorem c3_detection_counterexample :
    ¬(detectColumns [[some (.str ("amount".data)),
        some (.str ("description".data))]]).isEmpty = true ∧
    requiredMapped (detectColumns [[some (.str ("amount".data)),
        some (.str ("description".data))]]) = false ∧
    parseWS (fun _ => none) 0 [[some (.str ("amount".data)),
        some (.str ("description".data))]] = ([], []) := by
  refine ⟨by decide, by decide, by decide⟩

/-- Claim C3 (amended): column detection aborts the run with an empty map
and the single structural error if and only if no recognized column at all
was mapped within the three-row scan window; an empty map in particular
means the minimum required set is unmapped, but an incomplete minimum set
with at least one recognized column does not abort. -/
theorem c3_structural_error_iff_empty_map (pd : CellValue → Option Date)
    (today : Date) (ws : List (List (Option CellValue))) :
    (parseWS pd today ws = ([], [structMsg]) ↔
      (detectColumns ws).isEmpty = true) ∧
    ((detectColumns ws).isEmpty = true →
      requiredMapped (detectColumns ws) = false) := by
  constructor
  · constructor
    · intro h
      by_contra hne
      simp only [parseWS] at h
      rw [if_neg hne] at h
      have h2 := congrArg Prod.snd h
      simp only at h2
      have hmem : structMsg ∈
          (parseRows pd today (detectColumns ws) (ws.drop 1) 2).2 := by
        rw [h2]
        exact List.mem_singleton_self _
      have hhead := parseRows_errors_head pd today (detectColumns ws)
        (ws.drop 1) 2 structMsg hmem
      exact absurd hhead (by decide)
    · intro h
      simp [parseWS, h]
  · intro h
    rw [List.isEmpty_iff] at h
    rw [h]
    rfl

/-- Witness for C3 (amended): a sheet whose only header cell matches no
alias yields the empty map and the structural error. -/
theorem c3_structural_error_iff_empty_map_witness :
    parseWS (fun _ => none) 0 [[some (.str ("foo".data))]] =
      ([], [structMsg]) ∧
    requiredMapped (detectColumns [[some (.str ("foo".data))]]) = false := by
  have h := c3_structural_error_iff_empty_map (fun _ => none) 0
    [[some (.str ("foo".data))]]
  exact ⟨h.1.mpr (by decide), h.2 (by decide)⟩

/-! ## Claim C4 -/

theorem kwScore_count (dwords : List PyStr) (ndesc : PyStr) :
    ∀ kws : List PyStr,
    kwScore dwords ndesc kws =
      3 * kws.countP (fun k => dwords.contains (lowerChars k)) +
        kws.countP (fun k => !dwords.contains (lowerChars k) &&
          occursInChars (lowerChars k) ndesc) := by
  intro kws
  induction kws with
  | nil => simp [kwScore]
  | cons k ks ih =>
    simp only [kwScore, List.countP_cons, ih]
    by_cases h1 : lowerChars k ∈ dwords
    · simp [h1]
      try omega
    · by_cases h2 : occursInChars (lowerChars k) ndesc = true
      · simp [h1, h2]
        try omega
      · simp [h1, h2]
        try omega

theorem nameScore_count (dwords : List PyStr) :
    ∀ ws : List PyStr,
    nameScore dwords ws = 2 * ws.countP (fun w => dwords.contains w) := by
  intro ws
  induction ws with
  | nil => simp [nameScore]
  | cons w ws ih =>
    simp only [nameScore, List.countP_cons, ih]
    by_cases h : w ∈ dwords
    · simp [h]
      try omega
    · simp [h]
      try omega

theorem selectBest_spec (km : List (PyStr × List PyStr)) (dwords : List PyStr)
    (ndesc : PyStr) :
    ∀ (cs : List Categ) (best : Option Categ) (bs : ℕ),
    selectBest km dwords ndesc cs (best, bs) =
      if bs < maxScoreOf km dwords ndesc cs then
        ((cs.filter (fun c => !(kmGet km c.cname).isEmpty)).find?
          (fun c => catScore km dwords ndesc c = maxScoreOf km dwords ndesc cs),
          maxScoreOf km dwords ndesc cs)
      else (best, bs) := by
  intro cs
  induction cs with
  | nil =>
    intro best bs
    simp [selectBest, maxScoreOf]
  | cons c cs ih =>
    intro best bs
    by_cases hk : (kmGet km c.cname).isEmpty = true
    · simp only [selectBest, maxScoreOf, hk, if_pos, List.filter_cons]
      simp only [hk, Bool.not_true, Bool.false_eq_true, if_false]
      exact ih best bs
    · simp only [selectBest, maxScoreOf, hk, Bool.false_eq_true, if_false,
        List.filter_cons]
      simp only [hk, Bool.not_false, if_pos]
      set s := catScore km dwords ndesc c with hs
      set M := maxScoreOf km dwords ndesc cs with hM
      by_cases hsb : bs < s
      · rw [if_pos hsb]
        rw [ih (some c) s]
        by_cases hMs : s < M
        · rw [if_pos hMs]
          rw [if_pos (by omega)]
          have hfind : (List.find? (fun c2 => catScore km dwords ndesc c2 =
              max s M) (c :: cs.filter (fun c2 => !(kmGet km c2.cname).isEmpty))) =
              List.find? (fun c2 => catScore km dwords ndesc c2 = max s M)
                (cs.filter (fun c2 => !(kmGet km c2.cname).isEmpty)) := by
            rw [List.find?_cons_of_neg]
            simp only [← hs]
            simp only [decide_eq_true_eq]
            omega
          rw [hfind]
          have : max s M = M := by omega
          rw [this]
        · rw [if_neg hMs]
          rw [if_pos (by omega)]
          have hmax : max s M = s := by omega
          rw [hmax]
          rw [List.find?_cons_of_pos]
          simp only [← hs]
          simp
      · rw [if_neg hsb]
        rw [ih best bs]
        by_cases hMb : bs < M
        · rw [if_pos hMb]
          rw [if_pos (by omega)]
          have hmax : max s M = M := by omega
          rw [hmax]
          rw [List.find?_cons_of_neg]
          simp only [← hs]
          simp only [decide_eq_true_eq]
          omega
        · rw [if_neg hMb]
          rw [if_neg (by omega)]

/-- Counterexample for C4: two categories tied at the same best score are
not left uncategorized — the first in iteration order is returned; and a
category with an empty keyword list is skipped entirely even when its own
name would score 2 by the claimed formula. -/
theorem c4_tie_counterexample :
    matchCat [⟨("a".data)⟩, ⟨("b".data)⟩]
        [(("a".data), [("taxi".data)]), (("b".data), [("taxi".data)])]
        ("taxi".data) = some ⟨("a".data)⟩ ∧
    catScore [(("a".data), [("taxi".data)]), (("b".data), [("taxi".data)])]
        (extractWords ("taxi".data)) (lowerChars ("taxi".data)) ⟨("a".data)⟩ =
      catScore [(("a".data), [("taxi".data)]), (("b".data), [("taxi".data)])]
        (extractWords ("taxi".data)) (lowerChars ("taxi".data)) ⟨("b".data)⟩ ∧
    matchCat [⟨("pizza".data)⟩] [] ("pizza".data) = none ∧
    2 ≤ 2 * (extractWords ("pizza".data)).countP
        (fun w => (extractWords ("pizza".data)).contains w) := by
  refine ⟨by decide, by decide, by decide, by decide⟩

/-- Claim C4 (amended): phase-2 scores a category as 3 per keyword
matching a tokenized description word exactly, plus 1 per keyword matching
only as a substring of the lowercased description, plus 2 per token of the
category name appearing among the description words; the fold considers
only categories with a nonempty keyword list, and returns the first such
category (in iteration order) attaining the maximal score when that score
is at least 2 — so ties go to the earliest scored category, and only a
best score below 2 (or an empty/wordless description) leaves the row
uncategorized. -/
theorem c4_phase2_scoring (cats : List Categ) (km : List (PyStr × List PyStr))
    (desc : PyStr) :
    (∀ c : Categ,
      catScore km (extractWords desc) (lowerChars desc) c =
        3 * (kmGet km c.cname).countP
            (fun k => (extractWords desc).contains (lowerChars k)) +
          (kmGet km c.cname).countP
            (fun k => !(extractWords desc).contains (lowerChars k) &&
              occursInChars (lowerChars k) (lowerChars desc)) +
          2 * (extractWords c.cname).countP
            (fun w => (extractWords desc).contains w)) ∧
    matchCat cats km desc =
      (if desc.isEmpty = true ∨ (extractWords desc).isEmpty = true then none
       else if 2 ≤ maxScoreOf km (extractWords desc) (lowerChars desc) cats then
         (cats.filter (fun c => !(kmGet km c.cname).isEmpty)).find?
           (fun c => catScore km (extractWords desc) (lowerChars desc) c =
             maxScoreOf km (extractWords desc) (lowerChars desc) cats)
       else none) := by
  constructor
  · intro c
    rw [catScore, kwScore_count, nameScore_count]
  · by_cases hd : desc.isEmpty = true
    · simp [matchCat, hd]
    · by_cases hw : (extractWords desc).isEmpty = true
      · simp [matchCat, hd, hw]
      · simp only [matchCat, hd, hw, Bool.false_eq_true, if_false, false_or,
          or_self]
        rw [selectBest_spec]
        by_cases hM0 : 0 < maxScoreOf km (extractWords desc) (lowerChars desc) cats
        · rw [if_pos hM0]
        · rw [if_neg hM0]
          have hM : maxScoreOf km (extractWords desc) (lowerChars desc) cats = 0 := by
            omega
          rw [hM]
          simp

/-! ## Claim C5 -/

theorem dedupAux_mem :
    ∀ (l : List PyStr) (seen : List PyStr) (x : PyStr),
    x ∈ dedupAux seen l ↔ x ∈ l ∧ ¬x ∈ seen := by
  intro l
  induction l with
  | nil =>
    intro seen x
    simp [dedupAux]
  | cons y ys ih =>
    intro seen x
    by_cases hy : y ∈ seen
    · have hc : seen.contains y = true := by simpa using hy
      simp only [dedupAux, hc, if_pos, ih, List.mem_cons]
      constructor
      · rintro ⟨h1, h2⟩
        exact ⟨Or.inr h1, h2⟩
      · rintro ⟨h1 | h1, h2⟩
        · subst h1
          exact absurd hy h2
        · exact ⟨h1, h2⟩
    · have hc : seen.contains y = false := by simpa using hy
      simp only [dedupAux, hc, Bool.false_eq_true, if_false, List.mem_cons, ih]
      constructor
      · rintro (h1 | ⟨h1, h2⟩)
        · subst h1
          exact ⟨Or.inl rfl, hy⟩
        · push_neg at h2
          exact ⟨Or.inr h1, h2.2⟩
      · rintro ⟨h1 | h1, h2⟩
        · exact Or.inl h1
        · by_cases hxy : x = y
          · exact Or.inl hxy
          · refine Or.inr ⟨h1, ?_⟩
            push_neg
            exact ⟨hxy, h2⟩

/-- Counterexample for C5: first, a token occurring twice inside a single
expense description is learned although it appears in only one of the
descriptions (the occurrence counter is not a per-description counter);
second, the surviving ten are the first ten qualifying tokens in
first-occurrence order, not the top ten by frequency — `kkkk`, the most
frequent qualifying token (4 occurrences), is dropped in favour of ten
tokens with 2 occurrences each that happened to occur earlier. -/
theorem c5_learned_counterexample :
    ("pizza".data) ∈ buildEntry ("x".data) [("pizza pizza".data)] ∧
    ([("pizza pizza".data)].countP
      (fun d => (extractWords d).contains ("pizza".data))) = 1 ∧
    ¬(("kkkk".data) ∈ learnedWords
      [("aaaa bbbb cccc dddd eeee ffff gggg hhhh iiii jjjj kkkk".data),
       ("aaaa bbbb cccc dddd eeee ffff gggg hhhh iiii jjjj kkkk".data),
       ("kkkk kkkk".data)]) ∧
    ("aaaa".data) ∈ learnedWords
      [("aaaa bbbb cccc dddd eeee ffff gggg hhhh iiii jjjj kkkk".data),
       ("aaaa bbbb cccc dddd eeee ffff gggg hhhh iiii jjjj kkkk".data),
       ("kkkk kkkk".data)] ∧
    ([("aaaa bbbb cccc dddd eeee ffff gggg hhhh iiii jjjj kkkk".data),
      ("aaaa bbbb cccc dddd eeee ffff gggg hhhh iiii jjjj kkkk".data),
      ("kkkk kkkk".data)].flatMap extractWords).count ("kkkk".data) = 4 ∧
    ([("aaaa bbbb cccc dddd eeee ffff gggg hhhh iiii jjjj kkkk".data),
      ("aaaa bbbb cccc dddd eeee ffff gggg hhhh iiii jjjj kkkk".data),
      ("kkkk kkkk".data)].flatMap extractWords).count ("aaaa".data) = 2 := by
  refine ⟨by decide, by decide, by decide, by decide, by decide, by decide⟩

/-- Claim C5 (amended): the keyword map entry of a category is the union
(without duplicates) of its predefined keyword list and the learned set
mined once per run from up to 100 of its expenses' descriptions; the
learned set is the first 10 tokens, in first-occurrence order, among the
tokens longer than 3 characters whose total number of occurrences across
those descriptions (counting repeats within one description) is at least
2, after stop-word removal. -/
theorem c5_learned_keywords (cats : List Categ)
    (descsOf : PyStr → List PyStr) :
    buildKeywordMap cats descsOf =
      cats.map (fun c =>
        (c.cname, buildEntry c.cname ((descsOf c.cname).take 100))) ∧
    (∀ (name : PyStr) (descs : List PyStr) (k : PyStr),
      k ∈ buildEntry name descs ↔
        k ∈ predefinedKeywords name ∨ k ∈ learnedWords descs) ∧
    (∀ (descs : List PyStr) (w : PyStr), w ∈ learnedWords descs →
      3 < w.length ∧ 2 ≤ (descs.flatMap extractWords).count w) ∧
    (∀ descs : List PyStr, (learnedWords descs).length ≤ 10) ∧
    (∀ descs : List PyStr, learnedWords descs =
      ((dedupKeepFirst (descs.flatMap extractWords)).filter
        (fun w => 2 ≤ (descs.flatMap extractWords).count w &&
          3 < w.length)).take 10) := by
  refine ⟨rfl, ?_, ?_, ?_, fun descs => rfl⟩
  · intro name descs k
    rw [buildEntry, dedupKeepFirst, dedupAux_mem]
    simp [List.mem_append]
  · intro descs w hw
    have hw2 := List.take_subset 10 _ hw
    have hw3 := List.mem_filter.mp hw2
    have hw4 := hw3.2
    simp only [Bool.and_eq_true, decide_eq_true_eq] at hw4
    exact ⟨hw4.2, hw4.1⟩
  · intro descs
    exact List.length_take_le _ _

/-- Witness for C5 (amended): the learned token of a single repeated-word
description has length above 3 and total count at least 2. -/
theorem c5_learned_keywords_witness :
    3 < ("pizza".data).length ∧
      2 ≤ ([("pizza pizza".data)].flatMap extractWords).count ("pizza".data) := by
  exact (c5_learned_keywords [] (fun _ => [])).2.2.1 [("pizza pizza".data)]
    ("pizza".data) (by decide)

/-! ## Claim C6 -/

/-- Claim C6 evaluated at its failing input: a row whose mapped cells are
all empty is not silently skipped.  The description-synthesis fallback
always installs a description key (the empty string here), so extraction
never returns `None`; the row reaches validation and contributes
`Row 2: Amount is required; Description is required` to the error list,
contrary to the claim that such a row yields no row and no error. -/
theorem c6_empty_row_not_skipped :
    (extractRow
      (detectColumns
        [[some (.str ("date".data)), some (.str ("amount".data)),
          some (.str ("description".data))], [none, none, none]])
      [none, none, none]).isSome = true ∧
    extractRow
      (detectColumns
        [[some (.str ("date".data)), some (.str ("amount".data)),
          some (.str ("description".data))], [none, none, none]])
      [none, none, none] = some { rdescription := some (.str []) } ∧
    parseWS (fun _ => none) 0
      [[some (.str ("date".data)), some (.str ("amount".data)),
        some (.str ("description".data))], [none, none, none]] =
      ([], [("Row 2: Amount is required; Description is required".data)]) := by
  refine ⟨by decide, by decide, by decide⟩
